import Mathlib

/-!
Verification development for `tools/benchmark_compare/compare_profiles.py`.

The script compares two Go pprof CPU profiles: it parses `go tool pprof -top`
output into per-function cost tables, matches functions across the two runs,
classifies each matched function as regression / improvement / stable under a
threshold-and-floor policy, and renders ranked report tables.

Embedding conventions:
* Python floats are modelled as rationals (`ℚ`).
* Python strings are `String`; where character-level scanning matters
  (the regular-expression row matcher, line splitting) we work on `List Char`.
* Python exceptions are modelled with `Except String`: a raised `ValueError`
  that propagates out of `main` is an `Except.error` result.
* `re.search` over user-supplied exclude patterns is kept abstract as a
  parameter `search : String → String → Bool` (pattern, subject); all other
  regular expressions in the script are fixed literals and are modelled
  concretely below.
-/

namespace CompareProfiles

/-- Python `\s` (ASCII whitespace as produced by pprof output). -/
def isPySpace (c : Char) : Bool :=
  c = ' ' ∨ c = '\t' ∨ c = '\n' ∨ c = '\r' ∨ c = '\x0b' ∨ c = '\x0c'

/-- The character class `[\d.]` used by every numeric group in the script. -/
def isDigitDot (c : Char) : Bool :=
  c.isDigit || c = '.'

/-- Python `str.split("\n")`, on character lists. -/
def splitLines : List Char → List (List Char)
  | [] => [[]]
  | c :: cs =>
    if c = '\n' then [] :: splitLines cs
    else
      match splitLines cs with
      | [] => [[c]]
      | l :: ls => (c :: l) :: ls

/-- Python `str.strip()` (both ends, whitespace). -/
def pyStrip (cs : List Char) : List Char :=
  ((cs.dropWhile isPySpace).reverse.dropWhile isPySpace).reverse

/-- Does the character list start with the given literal? -/
def startsWithL : List Char → List Char → Bool
  | _, [] => true
  | [], _ :: _ => false
  | c :: cs, p :: ps => c = p && startsWithL cs ps

/-- Does the character list contain the given literal anywhere (`"x" in s`)? -/
def containsSub (sub : List Char) : List Char → Bool
  | [] => startsWithL [] sub
  | c :: rest => startsWithL (c :: rest) sub || containsSub sub rest

/-- Value of a list of decimal digit characters. -/
def digitsToNat (cs : List Char) : ℕ :=
  cs.foldl (fun n c => 10 * n + (c.toNat - 48)) 0

/--
Python `float()` restricted to the tokens the script ever feeds it: matches of
the character class `[\d.]+`.  Such a token parses iff it has at most one dot
and at least one digit (`float("1.2.3")` and `float(".")` raise `ValueError`);
the value is the usual decimal reading.
-/
def pyFloat (cs : List Char) : Option ℚ :=
  if cs.all isDigitDot ∧ cs.count '.' ≤ 1 ∧ cs.any Char.isDigit then
    some ((digitsToNat (cs.takeWhile (fun c => ¬ c = '.')) : ℚ) +
      (digitsToNat ((cs.dropWhile (fun c => ¬ c = '.')).drop 1) : ℚ) /
        (10 : ℚ) ^ ((cs.dropWhile (fun c => ¬ c = '.')).drop 1).length)
  else
    none

/-- Consume a nonempty maximal `[\d.]+` group; fail on empty. -/
def takeNumGroup (cs : List Char) : Option (List Char × List Char) :=
  let tok := cs.takeWhile isDigitDot
  if tok.isEmpty then none else some (tok, cs.dropWhile isDigitDot)

/-- Consume the alternation `(ms|s)`; returns `true` when the unit was `ms`. -/
def takeUnit : List Char → Option (Bool × List Char)
  | 'm' :: 's' :: rest => some (true, rest)
  | 's' :: rest => some (false, rest)
  | _ => none

/-- Consume `\s+` (at least one whitespace character). -/
def dropSpace1 (cs : List Char) : Option (List Char) :=
  if (cs.takeWhile isPySpace).isEmpty then none else some (cs.dropWhile isPySpace)

/-- Consume a literal character. -/
def expectChar (c : Char) : List Char → Option (List Char)
  | [] => none
  | d :: rest => if d = c then some rest else none

/-- The groups captured by the data-row regular expression. -/
structure RowGroups where
  flatTok : List Char
  flatIsMs : Bool
  cumTok : List Char
  cumIsMs : Bool
  nameRaw : List Char
deriving DecidableEq

/--
Tail of the data-row pattern, `\s+(.+)$`, on a newline-free line remainder:
at least one whitespace character, then a nonempty group 5.  When everything
after the whitespace run is empty the regular expression backtracks and group 5
is the last whitespace character itself.
-/
def takeNameTail (cs : List Char) : Option (List Char) :=
  let w := cs.takeWhile isPySpace
  let rest := cs.dropWhile isPySpace
  if w.isEmpty then none
  else if rest.isEmpty then
    match w.getLast? with
    | some c => if 2 ≤ w.length then some [c] else none
    | none => none
  else some rest

/--
Model of `pattern.match` for the data-row regular expression
`^\s*([\d.]+)(ms|s)\s+[\d.]+%\s+[\d.]+%\s+([\d.]+)(ms|s)\s+[\d.]+%\s+(.+)$`
applied to one (newline-free) line of pprof output.
-/
def rowMatch (line : List Char) : Option RowGroups := do
  let cs := line.dropWhile isPySpace
  let (t1, cs) ← takeNumGroup cs
  let (u1, cs) ← takeUnit cs
  let cs ← dropSpace1 cs
  let (_, cs) ← takeNumGroup cs
  let cs ← expectChar '%' cs
  let cs ← dropSpace1 cs
  let (_, cs) ← takeNumGroup cs
  let cs ← expectChar '%' cs
  let cs ← dropSpace1 cs
  let (t3, cs) ← takeNumGroup cs
  let (u3, cs) ← takeUnit cs
  let cs ← dropSpace1 cs
  let (_, cs) ← takeNumGroup cs
  let cs ← expectChar '%' cs
  let name ← takeNameTail cs
  pure ⟨t1, u1, t3, u3, name⟩

/-- One run's cost table: function name ↦ (flat ms, cumulative ms). -/
abbrev CostTable := List (String × ℚ × ℚ)

/-- Python dict assignment `functions[name] = v`: overwrite in place, else append. -/
def dictInsert (m : CostTable) (k : String) (v : ℚ × ℚ) : CostTable :=
  if m.any (fun p => p.1 = k) then
    m.map (fun p => if p.1 = k then (k, v) else p)
  else
    m ++ [(k, v)]

/-- Keys of a cost table. -/
def tblKeys (t : CostTable) : List String :=
  t.map Prod.fst

/--
Dictionary lookup `funcs[name]`.  In the script this is only ever applied to
names known to be present; the `(0, 0)` fallback is never reached there.
-/
def tblLookup (t : CostTable) (name : String) : ℚ × ℚ :=
  match t.find? (fun p => p.1 = name) with
  | some p => p.2
  | none => (0, 0)

/--
One line of the data-row loop in `parse_pprof_output`: a line that matches the
row shape has its two numeric groups converted with `float()` (a conversion
failure raises and aborts), is unit-normalized to milliseconds, and is stored
under the stripped function name; any other line is silently skipped.
-/
def parseLineStep (fns : CostTable) (line : List Char) : Except String CostTable :=
  match rowMatch line with
  | none => Except.ok fns
  | some g =>
    match pyFloat g.flatTok, pyFloat g.cumTok with
    | some fv, some cv =>
      Except.ok (dictInsert fns (String.mk (pyStrip g.nameRaw))
        ((if g.flatIsMs then fv else fv * 1000), (if g.cumIsMs then cv else cv * 1000)))
    | _, _ => Except.error "could not convert string to float"

/-- Consume an exact literal (first argument), returning the remainder. -/
def dropLit : List Char → List Char → Option (List Char)
  | [], cs => some cs
  | _ :: _, [] => none
  | p :: ps, c :: cs => if c = p then dropLit ps cs else none

/-- Match `Total samples\s*=\s*([\d.]+)(ms|s)` starting at this position. -/
def matchTotalAt (cs : List Char) : Option (List Char × Bool) := do
  let cs ← dropLit "Total samples".toList cs
  let cs := cs.dropWhile isPySpace
  let cs ← expectChar '=' cs
  let cs := cs.dropWhile isPySpace
  let (tok, cs) ← takeNumGroup cs
  let (u, _) ← takeUnit cs
  pure (tok, u)

/-- Match `Duration:\s*([\d.]+)s` starting at this position. -/
def matchDurationAt (cs : List Char) : Option (List Char) := do
  let cs ← dropLit "Duration:".toList cs
  let cs := cs.dropWhile isPySpace
  let (tok, cs) ← takeNumGroup cs
  let _ ← expectChar 's' cs
  pure tok

/-- Model of `re.search`: first position, scanning left to right, where `p` matches. -/
def searchFirst {α : Type} (p : List Char → Option α) : List Char → Option α
  | [] => p []
  | c :: cs =>
    match p (c :: cs) with
    | some r => some r
    | none => searchFirst p cs

/-- Header extraction of `Total samples`, normalized to milliseconds. -/
def extractTotalSamples (output : List Char) : Except String (Option ℚ) :=
  match searchFirst matchTotalAt output with
  | none => Except.ok none
  | some (tok, isMs) =>
    match pyFloat tok with
    | none => Except.error "could not convert string to float"
    | some v => Except.ok (some (if isMs then v else v * 1000))

/-- Header extraction of `Duration:` (seconds). -/
def extractDuration (output : List Char) : Except String (Option ℚ) :=
  match searchFirst matchDurationAt output with
  | none => Except.ok none
  | some tok =>
    match pyFloat tok with
    | none => Except.error "could not convert string to float"
    | some v => Except.ok (some v)

/--
Model of `parse_pprof_output`: extract the optional `Total samples` and `Duration`
header values, then fold the data-row loop over the lines of the output.
A `float()` failure anywhere surfaces as an error for the whole parse.
-/
def parse_pprof_output (output : List Char) :
    Except String (CostTable × Option ℚ × Option ℚ) := do
  let total ← extractTotalSamples output
  let duration ← extractDuration output
  let fns ← (splitLines output).foldlM parseLineStep []
  pure (fns, total, duration)

/-- Model of `should_exclude`: does any exclude pattern match (via `re.search`) the name? -/
def should_exclude (search : String → String → Bool) (funcName : String)
    (excludePatterns : List String) : Bool :=
  excludePatterns.any (fun pat => search pat funcName)

/-- Model of `categorize_function`: the first matching rule wins. -/
def categorize_function (funcName : String) : String :=
  if startsWithL funcName.data "game_main/".data then "YOUR_CODE"
  else if startsWithL funcName.data "runtime.".data then "RUNTIME"
  else if containsSub "ebiten".data funcName.data || containsSub "ebitenui".data funcName.data then
    "EBITEN"
  else if containsSub "ecs".data funcName.data then "ECS"
  else "OTHER"

/-- Rounding of `{:.0f}` formatting: round half to even. -/
def roundHalfEven (q : ℚ) : ℤ :=
  if q - ⌊q⌋ < 1/2 then ⌊q⌋
  else if 1/2 < q - ⌊q⌋ then ⌊q⌋ + 1
  else if ⌊q⌋ % 2 = 0 then ⌊q⌋ else ⌊q⌋ + 1

/--
Model of `format_change`: percentage-change rendering.  A zero baseline renders as the
`+NEW` marker (or `0%` when nothing changed); otherwise a signed integer
percentage.
-/
def format_change (old_val new_val : ℚ) : String :=
  if old_val = 0 then
    if new_val = 0 then "0%" else "+NEW"
  else
    (if 0 < (new_val - old_val) / old_val * 100 then "+" else "") ++
      toString (roundHalfEven ((new_val - old_val) / old_val * 100)) ++ "%"

/-- One function's cross-run comparison entry (the 10-tuple built in `main`). -/
structure CmpEntry where
  name : String
  category : String
  old_flat : ℚ
  new_flat : ℚ
  flat_delta : ℚ
  flat_pct : ℚ
  old_cum : ℚ
  new_cum : ℚ
  cum_delta : ℚ
  cum_pct : ℚ
deriving DecidableEq

/--
Percent change of a metric:
`((new - old) / old) * 100 if old > 0 else (100 if new > 0 else 0)`.
-/
def pctChange (oldv newv : ℚ) : ℚ :=
  if 0 < oldv then (newv - oldv) / oldv * 100
  else if 0 < newv then 100 else 0

/-- Build the comparison entry for one matched name. -/
def mkEntry (old new : CostTable) (name : String) : CmpEntry :=
  let o := tblLookup old name
  let n := tblLookup new name
  { name := name
    category := categorize_function name
    old_flat := o.1
    new_flat := n.1
    flat_delta := n.1 - o.1
    flat_pct := pctChange o.1 n.1
    old_cum := o.2
    new_cum := n.2
    cum_delta := n.2 - o.2
    cum_pct := pctChange o.2 n.2 }

/-- The regression test: either metric over threshold and floor. -/
def isRegression (threshold minDelta : ℚ) (e : CmpEntry) : Bool :=
  (decide (threshold < e.cum_pct) && decide (minDelta < |e.cum_delta|)) ||
    (decide (threshold < e.flat_pct) && decide (minDelta < |e.flat_delta|))

/-- The improvement test: the percent comparisons negated. -/
def isImprovement (threshold minDelta : ℚ) (e : CmpEntry) : Bool :=
  (decide (e.cum_pct < -threshold) && decide (minDelta < |e.cum_delta|)) ||
    (decide (e.flat_pct < -threshold) && decide (minDelta < |e.flat_delta|))

/-- Classification outcome for a matched, non-excluded function. -/
inductive Class where
  | regression
  | improvement
  | stable
deriving DecidableEq

/-- The `if is_regression / elif is_improvement / else` cascade. -/
def classifyEntry (threshold minDelta : ℚ) (e : CmpEntry) : Class :=
  if isRegression threshold minDelta e then Class.regression
  else if isImprovement threshold minDelta e then Class.improvement
  else Class.stable

/--
A new-only (resp. removed-only) report section: names present only in `prim`,
minus the already-collected excluded names, minus exclude-pattern matches,
kept when cumulative cost exceeds the fixed 200 ms floor, sorted by cumulative
cost descending.
-/
def onlySection (search : String → String → Bool) (pats : List String)
    (excluded : List String) (prim other : CostTable) : List (String × ℚ × ℚ) :=
  let names := (tblKeys prim).dedup.filter
    (fun n => !(decide (n ∈ tblKeys other)) && !(decide (n ∈ excluded)))
  let cand := names.filter (fun n => !(should_exclude search n pats))
  let items := cand.filterMap (fun n =>
    let fc := tblLookup prim n
    if (200 : ℚ) < fc.2 then some (n, fc.1, fc.2) else none)
  items.mergeSort (fun a b => decide (b.2.2 ≤ a.2.2))

/-- The comparison data built by `main` from the two parsed cost tables. -/
structure ComparisonResult where
  commonNames : List String
  excluded : List String
  regressions : List CmpEntry
  improvements : List CmpEntry
  stable : List CmpEntry
  newOnly : List (String × ℚ × ℚ)
  removedOnly : List (String × ℚ × ℚ)
deriving DecidableEq

/--
The diff engine of `main`: intersect the key sets, split off exclude-pattern
matches, classify every remaining matched function, sort regressions by
cumulative delta descending and improvements ascending, and build the
new-only / removed-only sections.
-/
def compareTables (search : String → String → Bool) (pats : List String)
    (old new : CostTable) (threshold minDelta : ℚ) : ComparisonResult :=
  let commonAll := (tblKeys old).dedup.filter (fun n => decide (n ∈ tblKeys new))
  let excluded := commonAll.filter (fun n => should_exclude search n pats)
  let common := commonAll.filter (fun n => !(should_exclude search n pats))
  let entries := common.map (mkEntry old new)
  { commonNames := common
    excluded := excluded
    regressions :=
      (entries.filter (fun e => decide (classifyEntry threshold minDelta e = Class.regression))).mergeSort
        (fun a b => decide (b.cum_delta ≤ a.cum_delta))
    improvements :=
      (entries.filter (fun e => decide (classifyEntry threshold minDelta e = Class.improvement))).mergeSort
        (fun a b => decide (a.cum_delta ≤ b.cum_delta))
    stable := entries.filter (fun e => decide (classifyEntry threshold minDelta e = Class.stable))
    newOnly := onlySection search pats excluded new old
    removedOnly := onlySection search pats excluded old new }

/-- The whole comparison pipeline: parse both outputs, then diff. -/
def compareFromOutputs (search : String → String → Bool) (pats : List String)
    (oldOutput newOutput : List Char) (threshold minDelta : ℚ) :
    Except String ComparisonResult := do
  let (oldFns, _, _) ← parse_pprof_output oldOutput
  let (newFns, _, _) ← parse_pprof_output newOutput
  pure (compareTables search pats oldFns newFns threshold minDelta)

/-- The value-carrying optional lines of the report header. -/
inductive HeaderItem where
  | oldDur (v : ℚ)
  | newDur (v : ℚ)
  | totalsBlock (oldTotal newTotal : ℚ)
deriving DecidableEq

/--
The conditional header lines of the report (`if old_duration: ...` etc.).
A `None` and a `0.0` are both falsy in Python, so a line is emitted only for a
present, nonzero value; the totals block needs both totals truthy.
-/
def headerOptionalLines (oldDuration newDuration oldTotal newTotal : Option ℚ) :
    List HeaderItem :=
  (match oldDuration with
   | some v => if v = 0 then [] else [HeaderItem.oldDur v]
   | none => []) ++
  (match newDuration with
   | some v => if v = 0 then [] else [HeaderItem.newDur v]
   | none => []) ++
  (match oldTotal, newTotal with
   | some o, some n => if o = 0 ∨ n = 0 then [] else [HeaderItem.totalsBlock o n]
   | _, _ => [])

/-! ## Helper lemmas -/

theorem pctChange_self (v : ℚ) : pctChange v v = 0 := by
  unfold pctChange
  rcases lt_or_ge 0 v with h | h
  · rw [if_pos h, sub_self, zero_div, zero_mul]
  · rw [if_neg (not_lt.mpr h), if_neg (not_lt.mpr h)]

theorem isRegression_iff (t f : ℚ) (e : CmpEntry) :
    isRegression t f e = true ↔
      (t < e.cum_pct ∧ f < |e.cum_delta|) ∨ (t < e.flat_pct ∧ f < |e.flat_delta|) := by
  simp [isRegression]

theorem isImprovement_iff (t f : ℚ) (e : CmpEntry) :
    isImprovement t f e = true ↔
      (e.cum_pct < -t ∧ f < |e.cum_delta|) ∨ (e.flat_pct < -t ∧ f < |e.flat_delta|) := by
  simp [isImprovement]

theorem mkEntry_name (old new : CostTable) (name : String) :
    (mkEntry old new name).name = name := rfl

/-- A list sorted with the descending-key comparator is pairwise non-increasing. -/
theorem pairwise_mergeSort_desc {α : Type} (k : α → ℚ) (l : List α) :
    List.Pairwise (fun a b => k b ≤ k a) (l.mergeSort (fun a b => decide (k b ≤ k a))) := by
  have h := @List.sorted_mergeSort α (fun a b => decide (k b ≤ k a))
    (by
      intro a b c hab hbc
      simp only [decide_eq_true_eq] at hab hbc ⊢
      exact hbc.trans hab)
    (by
      intro a b
      simp only [Bool.or_eq_true, decide_eq_true_eq]
      exact le_total (k b) (k a)) l
  exact h.imp (by intro a b hab; simpa using hab)

/-- A list sorted with the ascending-key comparator is pairwise non-decreasing. -/
theorem pairwise_mergeSort_asc {α : Type} (k : α → ℚ) (l : List α) :
    List.Pairwise (fun a b => k a ≤ k b) (l.mergeSort (fun a b => decide (k a ≤ k b))) := by
  have h := @List.sorted_mergeSort α (fun a b => decide (k a ≤ k b))
    (by
      intro a b c hab hbc
      simp only [decide_eq_true_eq] at hab hbc ⊢
      exact hab.trans hbc)
    (by
      intro a b
      simp only [Bool.or_eq_true, decide_eq_true_eq]
      exact le_total (k a) (k b)) l
  exact h.imp (by intro a b hab; simpa using hab)

/-- The three classification filters split a list of entries completely. -/
theorem length_filter_classes (t f : ℚ) (l : List CmpEntry) :
    (l.filter (fun e => decide (classifyEntry t f e = Class.regression))).length +
      (l.filter (fun e => decide (classifyEntry t f e = Class.improvement))).length +
      (l.filter (fun e => decide (classifyEntry t f e = Class.stable))).length = l.length := by
  induction l with
  | nil => simp
  | cons a as ih =>
    cases h : classifyEntry t f a <;>
      simp [List.filter, h] <;> omega

/-- Names listed in an entry list built from a name list are those names. -/
theorem map_name_map_mkEntry (old new : CostTable) (l : List String) :
    (l.map (mkEntry old new)).map CmpEntry.name = l := by
  rw [List.map_map]
  have h : (CmpEntry.name ∘ mkEntry old new) = id := funext (fun n => rfl)
  rw [h, List.map_id]

/-! ## C2: classification policy -/

/--
C2: every matched, non-excluded function is classified into exactly one of
regression / improvement / stable: regression iff (inclusive percent change
above threshold and inclusive delta above floor) or (the same on the exclusive
metric); failing that, improvement iff the sign-negated condition holds;
failing both, stable.  At the list level the three buckets of a comparison
split the matched, non-excluded functions completely.
-/
theorem classification_policy_exact (t f : ℚ) (e : CmpEntry)
    (search : String → String → Bool) (pats : List String) (old new : CostTable) :
    (classifyEntry t f e = Class.regression ↔
      (t < e.cum_pct ∧ f < |e.cum_delta|) ∨ (t < e.flat_pct ∧ f < |e.flat_delta|)) ∧
    (classifyEntry t f e = Class.improvement ↔
      (¬ ((t < e.cum_pct ∧ f < |e.cum_delta|) ∨ (t < e.flat_pct ∧ f < |e.flat_delta|))) ∧
        ((e.cum_pct < -t ∧ f < |e.cum_delta|) ∨ (e.flat_pct < -t ∧ f < |e.flat_delta|))) ∧
    (classifyEntry t f e = Class.stable ↔
      (¬ ((t < e.cum_pct ∧ f < |e.cum_delta|) ∨ (t < e.flat_pct ∧ f < |e.flat_delta|))) ∧
      (¬ ((e.cum_pct < -t ∧ f < |e.cum_delta|) ∨ (e.flat_pct < -t ∧ f < |e.flat_delta|)))) ∧
    ((compareTables search pats old new t f).regressions.length +
      (compareTables search pats old new t f).improvements.length +
      (compareTables search pats old new t f).stable.length =
      (compareTables search pats old new t f).commonNames.length) := by
  refine ⟨?_, ?_, ?_, ?_⟩
  · rw [← isRegression_iff]
    unfold classifyEntry
    split
    · simp_all
    · split <;> simp_all
  · rw [← isRegression_iff, ← isImprovement_iff]
    unfold classifyEntry
    split
    · simp_all
    · split <;> simp_all
  · rw [← isRegression_iff, ← isImprovement_iff]
    unfold classifyEntry
    split
    · simp_all
    · split <;> simp_all
  · simp only [compareTables]
    rw [(List.mergeSort_perm _ _).length_eq, (List.mergeSort_perm _ _).length_eq]
    rw [length_filter_classes]
    exact List.length_map _ _

/--
Witness for C2 at a concrete entry: percent change 100 with delta 100 under
threshold 30 and floor 50 is a regression, and the mirrored entry is an
improvement.
-/
theorem classification_policy_exact_witness :
    classifyEntry 30 50
      { name := "a", category := "OTHER", old_flat := 100, new_flat := 200,
        flat_delta := 100, flat_pct := 100, old_cum := 100, new_cum := 200,
        cum_delta := 100, cum_pct := 100 } = Class.regression ∧
    classifyEntry 30 50
      { name := "a", category := "OTHER", old_flat := 200, new_flat := 100,
        flat_delta := -100, flat_pct := -50, old_cum := 200, new_cum := 100,
        cum_delta := -100, cum_pct := -50 } = Class.improvement := by
  constructor
  · exact (classification_policy_exact 30 50 _ (fun _ _ => false) [] [] []).1.mpr
      (Or.inl (by constructor <;> decide))
  · exact (classification_policy_exact 30 50 _ (fun _ _ => false) [] [] []).2.1.mpr
      ⟨by decide, Or.inl (by constructor <;> decide)⟩

/-! ## C9: category classifier priority order -/

/--
C9: `categorize_function` follows a fixed priority order in which the first
matching rule wins: the `game_main/` prefix forces `YOUR_CODE` regardless of
later rules; otherwise the `runtime.` prefix forces `RUNTIME` even when a UI
or entity-framework fragment also occurs in the name; otherwise an `ebiten`
or `ebitenui` fragment gives `EBITEN`; otherwise an `ecs` fragment gives
`ECS`; otherwise `OTHER`.
-/
theorem categorize_priority_order (name : String) :
    (startsWithL name.data "game_main/".data = true →
      categorize_function name = "YOUR_CODE") ∧
    (startsWithL name.data "game_main/".data = false →
      startsWithL name.data "runtime.".data = true →
      categorize_function name = "RUNTIME") ∧
    (startsWithL name.data "game_main/".data = false →
      startsWithL name.data "runtime.".data = false →
      (containsSub "ebiten".data name.data = true ∨
        containsSub "ebitenui".data name.data = true) →
      categorize_function name = "EBITEN") ∧
    (startsWithL name.data "game_main/".data = false →
      startsWithL name.data "runtime.".data = false →
      containsSub "ebiten".data name.data = false →
      containsSub "ebitenui".data name.data = false →
      containsSub "ecs".data name.data = true →
      categorize_function name = "ECS") ∧
    (startsWithL name.data "game_main/".data = false →
      startsWithL name.data "runtime.".data = false →
      containsSub "ebiten".data name.data = false →
      containsSub "ebitenui".data name.data = false →
      containsSub "ecs".data name.data = false →
      categorize_function name = "OTHER") := by
  refine ⟨?_, ?_, ?_, ?_, ?_⟩
  · intro h1; simp [categorize_function, h1]
  · intro h1 h2; simp [categorize_function, h1, h2]
  · intro h1 h2 h3
    rcases h3 with h3 | h3 <;> simp [categorize_function, h1, h2, h3]
  · intro h1 h2 h3 h4 h5; simp [categorize_function, h1, h2, h3, h4, h5]
  · intro h1 h2 h3 h4 h5; simp [categorize_function, h1, h2, h3, h4, h5]

/--
Witness for C9: a runtime-prefixed name containing both UI and
entity-framework fragments is still `RUNTIME`, and a `game_main/` name
containing `ecs` is still `YOUR_CODE`.
-/
theorem categorize_priority_order_witness :
    startsWithL "runtime.ebitenEcsShim".data "game_main/".data = false ∧
    startsWithL "runtime.ebitenEcsShim".data "runtime.".data = true ∧
    categorize_function "runtime.ebitenEcsShim" = "RUNTIME" ∧
    categorize_function "game_main/ecs.Update" = "YOUR_CODE" := by
  refine ⟨by decide, by decide, ?_, ?_⟩
  · exact (categorize_priority_order "runtime.ebitenEcsShim").2.1 (by decide) (by decide)
  · exact (categorize_priority_order "game_main/ecs.Update").1 (by decide)

/-! ## C3: zero-baseline percent change -/

/--
C3: for a matched function whose old cost is zero, the percent change on that
metric is `100` when the new cost is positive and `0` otherwise — the guard
avoids the division entirely, so the diff is total — and the rendered change
for a zero baseline with changed cost is the distinct `+NEW` marker, not a
numeric percentage.
-/
theorem zero_baseline_pct (old new : CostTable) (name : String) :
    ((tblLookup old name).1 = 0 →
      (mkEntry old new name).flat_pct =
        (if 0 < (tblLookup new name).1 then 100 else 0)) ∧
    ((tblLookup old name).2 = 0 →
      (mkEntry old new name).cum_pct =
        (if 0 < (tblLookup new name).2 then 100 else 0)) ∧
    (∀ v : ℚ, v ≠ 0 → format_change 0 v = "+NEW") ∧
    format_change 0 0 = "0%" ∧ "+NEW" ≠ "0%" := by
  refine ⟨?_, ?_, ?_, ?_, by decide⟩
  · intro h
    show pctChange (tblLookup old name).1 (tblLookup new name).1 = _
    rw [h]
    unfold pctChange
    rw [if_neg (lt_irrefl 0)]
  · intro h
    show pctChange (tblLookup old name).2 (tblLookup new name).2 = _
    rw [h]
    unfold pctChange
    rw [if_neg (lt_irrefl 0)]
  · intro v hv
    unfold format_change
    rw [if_pos rfl, if_neg hv]
  · unfold format_change
    rw [if_pos rfl, if_pos rfl]

/--
Witness for C3: a function costing 0 ms in the old run and 5 ms flat / 7 ms
cumulative in the new run gets percent change 100 on both metrics and renders
as `+NEW`.
-/
theorem zero_baseline_pct_witness :
    (mkEntry [("f", 0, 0)] [("f", 5, 7)] "f").flat_pct = 100 ∧
    (mkEntry [("f", 0, 0)] [("f", 5, 7)] "f").cum_pct = 100 ∧
    format_change 0 5 = "+NEW" := by
  refine ⟨?_, ?_, (zero_baseline_pct [("f", 0, 0)] [("f", 5, 7)] "f").2.2.1 5 (by decide)⟩
  · rw [(zero_baseline_pct [("f", 0, 0)] [("f", 5, 7)] "f").1 (by decide),
      if_pos (by decide)]
  · rw [(zero_baseline_pct [("f", 0, 0)] [("f", 5, 7)] "f").2.1 (by decide),
      if_pos (by decide)]

/-! ## C5: sort order of regressions and improvements -/

/--
C5: in every comparison result the regressions sequence is non-increasing in
inclusive (cumulative) delta and the improvements sequence is non-decreasing
in inclusive delta.
-/
theorem sort_order_deterministic (search : String → String → Bool)
    (pats : List String) (old new : CostTable) (t f : ℚ) :
    List.Pairwise (fun a b => b.cum_delta ≤ a.cum_delta)
      (compareTables search pats old new t f).regressions ∧
    List.Pairwise (fun a b => a.cum_delta ≤ b.cum_delta)
      (compareTables search pats old new t f).improvements := by
  constructor
  · exact pairwise_mergeSort_desc CmpEntry.cum_delta _
  · exact pairwise_mergeSort_asc CmpEntry.cum_delta _

/-- Witness for C5 at a two-function comparison that regresses both functions. -/
theorem sort_order_deterministic_witness :
    List.Pairwise (fun a b => b.cum_delta ≤ a.cum_delta)
      (compareTables (fun _ _ => false) [] [("f", 100, 100), ("g", 100, 100)]
        [("f", 300, 300), ("g", 500, 500)] 30 50).regressions ∧
    List.Pairwise (fun a b => a.cum_delta ≤ b.cum_delta)
      (compareTables (fun _ _ => false) [] [("f", 100, 100), ("g", 100, 100)]
        [("f", 300, 300), ("g", 500, 500)] 30 50).improvements :=
  sort_order_deterministic (fun _ _ => false) [] _ _ 30 50

/-! ## C10: header lines omitted on zero values -/

/--
C10: a parsed duration of exactly 0 (or a total-samples value of exactly 0 on
either side) makes the report header behave exactly as if the corresponding
header line had been absent from the extractor output: the duration line, or
the whole total-samples block, is omitted, because omission is decided by
Python falsiness of the value, not merely by the header line being missing.
-/
theorem header_zero_is_absent :
    (∀ nd ot nt, headerOptionalLines (some 0) nd ot nt = headerOptionalLines none nd ot nt) ∧
    (∀ od ot nt, headerOptionalLines od (some 0) ot nt = headerOptionalLines od none ot nt) ∧
    (∀ od nd nt, headerOptionalLines od nd (some 0) nt = headerOptionalLines od nd none nt) ∧
    (∀ od nd ot, headerOptionalLines od nd ot (some 0) = headerOptionalLines od nd ot none) := by
  refine ⟨?_, ?_, ?_, ?_⟩
  · intro nd ot nt; simp [headerOptionalLines]
  · intro od ot nt; simp [headerOptionalLines]
  · intro od nd nt
    simp only [headerOptionalLines]
    congr 1
    cases nt <;> simp
  · intro od nd ot
    simp only [headerOptionalLines]
    congr 1
    cases ot <;> simp

/-! ## C1: the regression and improvement conditions are not globally exclusive -/

/--
C1 counterexample: with threshold 30 and floor 50, a matched function whose
exclusive cost drops from 100 ms to 10 ms while its inclusive cost rises from
150 ms to 400 ms satisfies the regression condition and the improvement
condition simultaneously — the percent-change sign argument only applies
within a single metric, not across the two metrics.
-/
theorem regression_improvement_both_hold :
    isRegression 30 50 (mkEntry [("f", 100, 150)] [("f", 10, 400)] "f") = true ∧
    isImprovement 30 50 (mkEntry [("f", 100, 150)] [("f", 10, 400)] "f") = true := by
  norm_num [isRegression, isImprovement, mkEntry, tblLookup, pctChange, List.find?]

/--
C1 amended: for a nonnegative threshold, the regression and improvement
conditions are mutually exclusive on each single metric (once its percent
change is past the threshold its sign decides); across the two metrics both
overall conditions can hold, and then the regression branch takes priority;
and a matched function whose exclusive and inclusive deltas are exactly zero
is classified stable.
-/
theorem regression_improvement_per_metric (t f : ℚ) (ht : 0 ≤ t) (e : CmpEntry) :
    (¬ ((t < e.cum_pct ∧ f < |e.cum_delta|) ∧ (e.cum_pct < -t ∧ f < |e.cum_delta|))) ∧
    (¬ ((t < e.flat_pct ∧ f < |e.flat_delta|) ∧ (e.flat_pct < -t ∧ f < |e.flat_delta|))) ∧
    (isRegression t f e = true → isImprovement t f e = true →
      classifyEntry t f e = Class.regression) ∧
    (∀ old new name, (tblLookup new name).1 = (tblLookup old name).1 →
      (tblLookup new name).2 = (tblLookup old name).2 →
      classifyEntry t f (mkEntry old new name) = Class.stable) := by
  refine ⟨?_, ?_, ?_, ?_⟩
  · rintro ⟨⟨ha, -⟩, ⟨hb, -⟩⟩
    linarith
  · rintro ⟨⟨ha, -⟩, ⟨hb, -⟩⟩
    linarith
  · intro hr _
    unfold classifyEntry
    rw [if_pos hr]
  · intro old new name h1 h2
    have hfp : (mkEntry old new name).flat_pct = 0 := by
      show pctChange (tblLookup old name).1 (tblLookup new name).1 = 0
      rw [h1, pctChange_self]
    have hcp : (mkEntry old new name).cum_pct = 0 := by
      show pctChange (tblLookup old name).2 (tblLookup new name).2 = 0
      rw [h2, pctChange_self]
    have hr : isRegression t f (mkEntry old new name) = false := by
      apply Bool.eq_false_iff.mpr
      rw [Ne, isRegression_iff, hfp, hcp]
      rintro (⟨hlt, -⟩ | ⟨hlt, -⟩) <;> exact absurd hlt (not_lt.mpr ht)
    have hi : isImprovement t f (mkEntry old new name) = false := by
      apply Bool.eq_false_iff.mpr
      rw [Ne, isImprovement_iff, hfp, hcp]
      rintro (⟨hlt, -⟩ | ⟨hlt, -⟩) <;>
        exact absurd hlt (not_lt.mpr (neg_nonpos.mpr ht))
    simp [classifyEntry, hr, hi]

/--
Witness for the amended C1: at threshold 30 and floor 50 the mixed-metric
entry of the counterexample is classified as a regression (the regression
branch wins), and a self-identical function is classified stable.
-/
theorem regression_improvement_per_metric_witness :
    classifyEntry 30 50 (mkEntry [("f", 100, 150)] [("f", 10, 400)] "f") = Class.regression ∧
    classifyEntry 30 50 (mkEntry [("g", 5, 5)] [("g", 5, 5)] "g") = Class.stable := by
  constructor
  · exact (regression_improvement_per_metric 30 50 (by decide)
      (mkEntry [("f", 100, 150)] [("f", 10, 400)] "f")).2.2.1
      (by norm_num [isRegression, mkEntry, tblLookup, pctChange, List.find?])
      (by norm_num [isImprovement, mkEntry, tblLookup, pctChange, List.find?])
  · exact (regression_improvement_per_metric 30 50 (by decide)
      (mkEntry [("g", 5, 5)] [("g", 5, 5)] "g")).2.2.2
      [("g", 5, 5)] [("g", 5, 5)] "g" (by decide) (by decide)

/-! ## C4: self-comparison -/

/--
C4 counterexample: with a negative threshold and a negative floor, comparing a
table against itself does not yield zero regressions — a percent change of 0
exceeds a negative threshold and a delta of 0 exceeds a negative floor, so
every matched function is classified as a regression.
-/
theorem self_compare_negative_config_regresses :
    (compareTables (fun _ _ => false) [] [("f", 100, 150)] [("f", 100, 150)]
      (-1) (-1)).regressions ≠ [] := by
  norm_num [compareTables, tblKeys, List.dedup, should_exclude, mkEntry, tblLookup,
    pctChange, classifyEntry, isRegression, isImprovement, List.find?, List.filter,
    List.mergeSort, onlySection]

/-- Entries built over a name list none of which classifies as `c` filter to nil. -/
theorem filter_class_eq_nil (t f : ℚ) (old new : CostTable) (l : List String) (c : Class)
    (key : ∀ n ∈ l, classifyEntry t f (mkEntry old new n) ≠ c) :
    (l.map (mkEntry old new)).filter (fun e => decide (classifyEntry t f e = c)) = [] := by
  apply List.filter_eq_nil_iff.mpr
  intro e he
  obtain ⟨n, hn, rfl⟩ := List.mem_map.mp he
  simpa using key n hn

/-- Entries built over a name list all of which classify as `c` filter to themselves. -/
theorem filter_class_eq_self (t f : ℚ) (old new : CostTable) (l : List String) (c : Class)
    (key : ∀ n ∈ l, classifyEntry t f (mkEntry old new n) = c) :
    (l.map (mkEntry old new)).filter (fun e => decide (classifyEntry t f e = c)) =
      l.map (mkEntry old new) := by
  apply List.filter_eq_self.mpr
  intro e he
  obtain ⟨n, hn, rfl⟩ := List.mem_map.mp he
  simpa using key n hn

/-- A new-only/removed-only section of a table against itself is empty. -/
theorem onlySection_self (search : String → String → Bool) (pats excl : List String)
    (tbl : CostTable) : onlySection search pats excl tbl tbl = [] := by
  unfold onlySection
  have hnames : (tblKeys tbl).dedup.filter
      (fun n => !(decide (n ∈ tblKeys tbl)) && !(decide (n ∈ excl))) = [] := by
    apply List.filter_eq_nil_iff.mpr
    intro n hn
    have hmem : n ∈ tblKeys tbl := List.mem_dedup.mp hn
    simp [hmem]
  rw [hnames]
  simp [List.mergeSort_nil]

/-- Every self-comparison entry classifies as stable under a nonneg threshold or floor. -/
theorem classify_self_entry_stable (t f : ℚ) (h : 0 ≤ t ∨ 0 ≤ f)
    (tbl : CostTable) (n : String) :
    classifyEntry t f (mkEntry tbl tbl n) = Class.stable := by
  have hfp : (mkEntry tbl tbl n).flat_pct = 0 := by
    show pctChange (tblLookup tbl n).1 (tblLookup tbl n).1 = 0
    rw [pctChange_self]
  have hcp : (mkEntry tbl tbl n).cum_pct = 0 := by
    show pctChange (tblLookup tbl n).2 (tblLookup tbl n).2 = 0
    rw [pctChange_self]
  have hfd : (mkEntry tbl tbl n).flat_delta = 0 := sub_self _
  have hcd : (mkEntry tbl tbl n).cum_delta = 0 := sub_self _
  have hr : isRegression t f (mkEntry tbl tbl n) = false := by
    apply Bool.eq_false_iff.mpr
    rw [Ne, isRegression_iff, hfp, hcp, hfd, hcd, abs_zero]
    rintro (⟨h1, h2⟩ | ⟨h1, h2⟩) <;>
      (rcases h with ht | hf
       · exact absurd h1 (not_lt.mpr ht)
       · exact absurd h2 (not_lt.mpr hf))
  have hi : isImprovement t f (mkEntry tbl tbl n) = false := by
    apply Bool.eq_false_iff.mpr
    rw [Ne, isImprovement_iff, hfp, hcp, hfd, hcd, abs_zero]
    rintro (⟨h1, h2⟩ | ⟨h1, h2⟩) <;>
      (rcases h with ht | hf
       · exact absurd h1 (not_lt.mpr (neg_nonpos.mpr ht))
       · exact absurd h2 (not_lt.mpr hf))
  simp [classifyEntry, hr, hi]

/--
C4 amended: comparing a cost table against itself, for any threshold and floor
of which at least one is nonnegative (a simultaneously negative threshold and
floor make a zero change count as a regression), yields zero regressions,
zero improvements, every matched non-excluded function classified stable, and
empty new-only and removed-only lists.
-/
theorem self_compare_all_stable (search : String → String → Bool) (pats : List String)
    (tbl : CostTable) (t f : ℚ) (h : 0 ≤ t ∨ 0 ≤ f) :
    (compareTables search pats tbl tbl t f).regressions = [] ∧
    (compareTables search pats tbl tbl t f).improvements = [] ∧
    (compareTables search pats tbl tbl t f).stable =
      (compareTables search pats tbl tbl t f).commonNames.map (mkEntry tbl tbl) ∧
    (∀ e ∈ (compareTables search pats tbl tbl t f).stable,
      classifyEntry t f e = Class.stable) ∧
    (compareTables search pats tbl tbl t f).newOnly = [] ∧
    (compareTables search pats tbl tbl t f).removedOnly = [] := by
  have key := classify_self_entry_stable t f h tbl
  refine ⟨?_, ?_, ?_, ?_, ?_, ?_⟩
  · simp only [compareTables]
    rw [filter_class_eq_nil t f tbl tbl _ _ (fun n _ => by rw [key n]; intro hc; cases hc)]
    exact List.mergeSort_nil
  · simp only [compareTables]
    rw [filter_class_eq_nil t f tbl tbl _ _ (fun n _ => by rw [key n]; intro hc; cases hc)]
    exact List.mergeSort_nil
  · simp only [compareTables]
    exact filter_class_eq_self t f tbl tbl _ _ (fun n _ => key n)
  · intro e he
    simp only [compareTables] at he
    rw [List.mem_filter] at he
    simpa using he.2
  · simp only [compareTables]
    exact onlySection_self _ _ _ _
  · simp only [compareTables]
    exact onlySection_self _ _ _ _

/--
Witness for the amended C4: a concrete two-function table compared against
itself at the default threshold 30 and floor 50 produces no regressions, no
improvements, and no new or removed functions.
-/
theorem self_compare_all_stable_witness :
    (compareTables (fun _ _ => false) [] [("f", 100, 150), ("g", 0, 3)]
      [("f", 100, 150), ("g", 0, 3)] 30 50).regressions = [] ∧
    (compareTables (fun _ _ => false) [] [("f", 100, 150), ("g", 0, 3)]
      [("f", 100, 150), ("g", 0, 3)] 30 50).improvements = [] ∧
    (compareTables (fun _ _ => false) [] [("f", 100, 150), ("g", 0, 3)]
      [("f", 100, 150), ("g", 0, 3)] 30 50).newOnly = [] ∧
    (compareTables (fun _ _ => false) [] [("f", 100, 150), ("g", 0, 3)]
      [("f", 100, 150), ("g", 0, 3)] 30 50).removedOnly = [] := by
  have h := self_compare_all_stable (fun _ _ => false) []
    [("f", 100, 150), ("g", 0, 3)] 30 50 (Or.inl (by decide))
  exact ⟨h.1, h.2.1, h.2.2.2.2.1, h.2.2.2.2.2⟩

/-! ## C6: exclusion removes a function from every category -/

/-- Entries drawn from a mapped name list cannot carry a name outside it. -/
theorem name_not_in_mapped_bucket (name : String) (old new : CostTable)
    (l : List CmpEntry) (common : List String)
    (hsub : ∀ e ∈ l, e ∈ common.map (mkEntry old new))
    (hnot : name ∉ common) : name ∉ l.map CmpEntry.name := by
  intro hmem
  obtain ⟨e, he, heq⟩ := List.mem_map.mp hmem
  obtain ⟨n, hn, rfl⟩ := List.mem_map.mp (hsub e he)
  rw [mkEntry_name] at heq
  exact hnot (heq ▸ hn)

/--
C6: a function present in both cost tables and matched by an exclude pattern
is counted in the excluded list, is absent from the common-functions list
(hence from the common count), and appears in none of the regressions,
improvements, or stable sequences.
-/
theorem exclusion_removes_everywhere (search : String → String → Bool)
    (pats : List String) (old new : CostTable) (t f : ℚ) (name : String)
    (h1 : name ∈ tblKeys old) (h2 : name ∈ tblKeys new)
    (hx : should_exclude search name pats = true) :
    name ∈ (compareTables search pats old new t f).excluded ∧
    name ∉ (compareTables search pats old new t f).commonNames ∧
    name ∉ (compareTables search pats old new t f).regressions.map CmpEntry.name ∧
    name ∉ (compareTables search pats old new t f).improvements.map CmpEntry.name ∧
    name ∉ (compareTables search pats old new t f).stable.map CmpEntry.name := by
  have hca : name ∈ (tblKeys old).dedup.filter (fun n => decide (n ∈ tblKeys new)) :=
    List.mem_filter.mpr ⟨List.mem_dedup.mpr h1, by simpa using h2⟩
  have hnotc : name ∉ ((tblKeys old).dedup.filter (fun n => decide (n ∈ tblKeys new))).filter
      (fun n => !(should_exclude search n pats)) := by
    intro hmem
    have hfalse := (List.mem_filter.mp hmem).2
    rw [hx] at hfalse
    cases hfalse
  refine ⟨?_, ?_, ?_, ?_, ?_⟩
  · simp only [compareTables]
    exact List.mem_filter.mpr ⟨hca, hx⟩
  · simp only [compareTables]
    exact hnotc
  · simp only [compareTables]
    exact name_not_in_mapped_bucket name old new _ _
      (fun e he => (List.mem_filter.mp ((List.mergeSort_perm _ _).mem_iff.mp he)).1) hnotc
  · simp only [compareTables]
    exact name_not_in_mapped_bucket name old new _ _
      (fun e he => (List.mem_filter.mp ((List.mergeSort_perm _ _).mem_iff.mp he)).1) hnotc
  · simp only [compareTables]
    exact name_not_in_mapped_bucket name old new _ _
      (fun e he => (List.mem_filter.mp he).1) hnotc

/--
Witness for C6: with the single exclude pattern `vec` (matched as a substring
here), the shared function `vector.Path` is excluded and appears in no bucket
of the comparison of two concrete tables.
-/
theorem exclusion_removes_everywhere_witness :
    "vector.Path" ∈ (compareTables (fun pat s => containsSub pat.data s.data) ["vec"]
      [("vector.Path", 100, 100), ("ok", 10, 10)]
      [("vector.Path", 900, 900), ("ok", 10, 10)] 30 50).excluded ∧
    "vector.Path" ∉ (compareTables (fun pat s => containsSub pat.data s.data) ["vec"]
      [("vector.Path", 100, 100), ("ok", 10, 10)]
      [("vector.Path", 900, 900), ("ok", 10, 10)] 30 50).regressions.map CmpEntry.name := by
  have h := exclusion_removes_everywhere (fun pat s => containsSub pat.data s.data) ["vec"]
    [("vector.Path", 100, 100), ("ok", 10, 10)]
    [("vector.Path", 900, 900), ("ok", 10, 10)] 30 50 "vector.Path"
    (by decide) (by decide) (by decide)
  exact ⟨h.1, h.2.2.1⟩

/-! ## C7: new-only / removed-only significance floor -/

/--
A name present only in `prim`, neither excluded nor pattern-matched, appears
in the section exactly when its cumulative cost exceeds the 200 ms floor.
-/
theorem mem_onlySection_iff (search : String → String → Bool) (pats excl : List String)
    (prim other : CostTable) (name : String)
    (h1 : name ∈ tblKeys prim) (h2 : name ∉ tblKeys other)
    (hexcl : name ∉ excl) (hx : should_exclude search name pats = false) :
    (name ∈ (onlySection search pats excl prim other).map (fun x => x.1) ↔
      200 < (tblLookup prim name).2) := by
  unfold onlySection
  constructor
  · intro hmem
    obtain ⟨a, ha, hname⟩ := List.mem_map.mp hmem
    obtain ⟨n, hn, hf⟩ := List.mem_filterMap.mp ((List.mergeSort_perm _ _).mem_iff.mp ha)
    by_cases hc : 200 < (tblLookup prim n).2
    · simp only [if_pos hc] at hf
      cases hf
      simp only at hname
      exact hname ▸ hc
    · simp only [if_neg hc] at hf
      cases hf
  · intro hc
    apply List.mem_map.mpr
    refine ⟨(name, (tblLookup prim name).1, (tblLookup prim name).2), ?_, rfl⟩
    apply (List.mergeSort_perm _ _).mem_iff.mpr
    apply List.mem_filterMap.mpr
    refine ⟨name, ?_, ?_⟩
    · apply List.mem_filter.mpr
      refine ⟨?_, by simp [hx]⟩
      apply List.mem_filter.mpr
      exact ⟨List.mem_dedup.mpr h1, by simp [h2, hexcl]⟩
    · simp only [if_pos hc]

/--
C7: a function present in exactly one table and not matched by any exclude
pattern appears in the new-only (resp. removed-only) section iff its
inclusive cost strictly exceeds the fixed 200 ms floor, and both sections are
sorted by inclusive cost descending.
-/
theorem new_removed_floor (search : String → String → Bool) (pats : List String)
    (old new : CostTable) (t f : ℚ) :
    (∀ name, name ∈ tblKeys new → name ∉ tblKeys old →
      should_exclude search name pats = false →
      (name ∈ (compareTables search pats old new t f).newOnly.map (fun x => x.1) ↔
        200 < (tblLookup new name).2)) ∧
    (∀ name, name ∈ tblKeys old → name ∉ tblKeys new →
      should_exclude search name pats = false →
      (name ∈ (compareTables search pats old new t f).removedOnly.map (fun x => x.1) ↔
        200 < (tblLookup old name).2)) ∧
    List.Pairwise (fun a b => b.2.2 ≤ a.2.2)
      (compareTables search pats old new t f).newOnly ∧
    List.Pairwise (fun a b => b.2.2 ≤ a.2.2)
      (compareTables search pats old new t f).removedOnly := by
  refine ⟨?_, ?_, ?_, ?_⟩
  · intro name hn ho hx
    simp only [compareTables]
    apply mem_onlySection_iff search pats _ new old name hn ho ?_ hx
    intro hmem
    exact ho (List.mem_dedup.mp (List.mem_filter.mp (List.mem_filter.mp hmem).1).1)
  · intro name hn ho hx
    simp only [compareTables]
    apply mem_onlySection_iff search pats _ old new name hn ho ?_ hx
    intro hmem
    have := (List.mem_filter.mp (List.mem_filter.mp hmem).1).2
    exact ho (by simpa using this)
  · simp only [compareTables]
    unfold onlySection
    exact pairwise_mergeSort_desc (fun x : String × ℚ × ℚ => x.2.2) _
  · simp only [compareTables]
    unfold onlySection
    exact pairwise_mergeSort_desc (fun x : String × ℚ × ℚ => x.2.2) _

/--
Witness for C7: a candidate-only function of 250 ms inclusive cost is listed
in the new-functions section, one of 150 ms is omitted.
-/
theorem new_removed_floor_witness :
    "b" ∈ (compareTables (fun _ _ => false) [] [("g", 1, 1)]
      [("g", 1, 1), ("a", 10, 150), ("b", 10, 250)] 30 50).newOnly.map
        (fun x : String × ℚ × ℚ => x.1) ∧
    "a" ∉ (compareTables (fun _ _ => false) [] [("g", 1, 1)]
      [("g", 1, 1), ("a", 10, 150), ("b", 10, 250)] 30 50).newOnly.map
        (fun x : String × ℚ × ℚ => x.1) := by
  have h := new_removed_floor (fun _ _ => false) [] [("g", 1, 1)]
    [("g", 1, 1), ("a", 10, 150), ("b", 10, 250)] 30 50
  constructor
  · exact (h.1 "b" (by decide) (by decide) rfl).mpr (by decide)
  · intro hmem
    exact absurd ((h.1 "a" (by decide) (by decide) rfl).mp hmem) (by decide)

/-! ## C8: a malformed numeric token aborts the whole comparison -/

theorem except_bind_ok {ε α β : Type} (a : α) (f : α → Except ε β) :
    (Except.ok a : Except ε α) >>= f = f a := rfl

theorem except_bind_error {ε α β : Type} (e : ε) (f : α → Except ε β) :
    (Except.error e : Except ε α) >>= f = Except.error e := rfl

theorem except_map_error {ε α β : Type} (e : ε) (f : α → β) :
    f <$> (Except.error e : Except ε α) = (Except.error e : Except ε β) := rfl

/-- A step that fails on some list element makes the whole fold fail. -/
theorem foldlM_error_of_mem {σ ε α : Type} (step : σ → α → Except ε σ) (x : α)
    (hstep : ∀ s, ∃ e, step s x = Except.error e) :
    ∀ (l : List α), x ∈ l → ∀ s0, ∃ e, l.foldlM step s0 = Except.error e := by
  intro l
  induction l with
  | nil => intro h; cases h
  | cons a as ih =>
    intro hmem s0
    rcases List.mem_cons.mp hmem with rfl | hmem'
    · obtain ⟨e, he⟩ := hstep s0
      exact ⟨e, by simp only [List.foldlM_cons, he, except_bind_error]⟩
    · cases ha : step s0 a with
      | error e => exact ⟨e, by simp only [List.foldlM_cons, ha, except_bind_error]⟩
      | ok s1 =>
        obtain ⟨e, he⟩ := ih hmem' s1
        exact ⟨e, by simp only [List.foldlM_cons, ha, except_bind_ok, he]⟩

/-- A row-shaped line with an unparseable numeric token fails for every state. -/
theorem parseLineStep_error (line : List Char) (g : RowGroups)
    (hm : rowMatch line = some g)
    (hbad : pyFloat g.flatTok = none ∨ pyFloat g.cumTok = none) :
    ∀ fns, ∃ e, parseLineStep fns line = Except.error e := by
  intro fns
  rcases hbad with hb | hb
  · cases hc : pyFloat g.cumTok with
    | none =>
      exact ⟨"could not convert string to float", by simp [parseLineStep, hm, hb, hc]⟩
    | some c =>
      exact ⟨"could not convert string to float", by simp [parseLineStep, hm, hb, hc]⟩
  · cases hc : pyFloat g.flatTok with
    | none =>
      exact ⟨"could not convert string to float", by simp [parseLineStep, hm, hb, hc]⟩
    | some c =>
      exact ⟨"could not convert string to float", by simp [parseLineStep, hm, hb, hc]⟩

/--
C8: if any line of the extractor output matches the data-row shape but one of
its numeric tokens does not parse as a floating-point number (e.g. `1.2.3`),
the whole parse of that output is an error, and the comparison pipeline using
that output in either position yields an error and hence no comparison
result.
-/
theorem malformed_token_aborts (output line : List Char)
    (hline : line ∈ splitLines output) (g : RowGroups)
    (hm : rowMatch line = some g)
    (hbad : pyFloat g.flatTok = none ∨ pyFloat g.cumTok = none) :
    (∃ e, parse_pprof_output output = Except.error e) ∧
    (∀ (search : String → String → Bool) (pats : List String)
      (other : List Char) (t f : ℚ),
      (∃ e, compareFromOutputs search pats output other t f = Except.error e) ∧
      (∃ e, compareFromOutputs search pats other output t f = Except.error e)) := by
  have hparse : ∃ e, parse_pprof_output output = Except.error e := by
    cases h1 : extractTotalSamples output with
    | error e =>
      exact ⟨e, by simp only [parse_pprof_output, h1, except_bind_error]⟩
    | ok tot =>
      cases h2 : extractDuration output with
      | error e =>
        exact ⟨e, by simp only [parse_pprof_output, h1, h2, except_bind_ok,
          except_bind_error]⟩
      | ok dur =>
        obtain ⟨e, he⟩ := foldlM_error_of_mem parseLineStep line
          (parseLineStep_error line g hm hbad) (splitLines output) hline []
        exact ⟨e, by simp only [parse_pprof_output, h1, h2, except_bind_ok, he,
          except_map_error, except_bind_error]⟩
  obtain ⟨e0, he0⟩ := hparse
  refine ⟨⟨e0, he0⟩, ?_⟩
  intro search pats other t f
  constructor
  · exact ⟨e0, by simp only [compareFromOutputs, he0, except_bind_error]⟩
  · cases h1 : parse_pprof_output other with
    | error e =>
      exact ⟨e, by simp only [compareFromOutputs, h1, except_bind_error]⟩
    | ok v =>
      obtain ⟨a, b, c⟩ := v
      exact ⟨e0, by
        simp only [compareFromOutputs, h1, except_bind_ok, he0, except_map_error]
        rfl⟩

/--
Witness for C8: the single-line output `1.2.3ms 0% 0% 5ms 0% foo` matches the
row shape, its first numeric token fails to parse, and both the parse and a
full comparison against an empty output abort with an error.
-/
theorem malformed_token_aborts_witness :
    (∃ e, parse_pprof_output "1.2.3ms 0% 0% 5ms 0% foo".data = Except.error e) ∧
    (∃ e, compareFromOutputs (fun _ _ => false) [] "1.2.3ms 0% 0% 5ms 0% foo".data
      "".data 30 50 = Except.error e) := by
  have h := malformed_token_aborts "1.2.3ms 0% 0% 5ms 0% foo".data
    "1.2.3ms 0% 0% 5ms 0% foo".data (by decide)
    ⟨"1.2.3".data, true, "5".data, true, "foo".data⟩ (by decide)
    (Or.inl (by decide))
  exact ⟨h.1, (h.2 (fun _ _ => false) [] "".data 30 50).1⟩

end CompareProfiles
